import Mathlib

/-!
Verification of the request-processing core of a Kubernetes admission
webhook (repository `tianlang724/webhook`).

The repository holds two protocol versions of the webhook:

* `V1` — the direct-construction variant (`src/unnamed/part_000`): `validate`
  checks required labels, `mutate` builds a JSON patch directly
  (status annotation plus a 90% resource-request reduction).
* `V2` — the diff-based variant (`src/v2/webhook.go`, with the shared
  configuration store of `src/unnamed/part_001`): `mutate` deep-copies the
  deployment, injects an init container parameterized by the store, and
  emits the structural diff as the patch.

Shallow-embedding conventions:

* Go maps (`map[string]string`, resource-request maps) are association
  lists; a nil-able Go map is an `Option` of an association list, and map
  iteration follows list order (Go map iteration order is unspecified;
  the embedding fixes it).
* Quantities (`k8s.io/apimachinery/pkg/api/resource`) are represented by
  their exact milli-unit value (`MilliValue`) together with the display
  format tag; `Quantity.String()` re-expresses exactly that pair, so patch
  values carry the structured pair instead of the rendered string.
* Go `int64` arithmetic is embedded as `Int` with `Int.tdiv` for `/`
  (Go division truncates toward zero); the claims under verification stay
  far below the `int64` overflow range, which is therefore not modelled.
* `strings.ToLower` is embedded ASCII-wise via `Char.toLower`
  (the inputs involved are ASCII).
* JSON (de)serialization, HTTP transport, TLS and logging are external
  collaborators and are not part of the core; decode of raw bytes is
  modelled by requests carrying the already-decoded typed views, and
  `json.Marshal` of a computed patch (which cannot fail on these values)
  is dropped.
-/

/-- ASCII model of Go `strings.ToLower`. -/
def strLower (s : String) : String := ⟨s.data.map Char.toLower⟩

/-- `resource.Format` tags of the quantity library (decimal vs binary scale). -/
inductive Format where
  | DecimalSI
  | BinarySI
  | DecimalExponent
deriving DecidableEq

/-- A `resource.Quantity`, represented by its exact milli-unit value
(`MilliValue`) and its display format. -/
structure Quantity where
  milliValue : Int
  format : Format
deriving DecidableEq

/-- `resource.NewMilliQuantity(value, format)`. -/
def NewMilliQuantity (value : Int) (format : Format) : Quantity :=
  { milliValue := value, format := format }

/-- `resource.NewQuantity(value, format)`: a whole-unit value, i.e. 1000 milli-units each. -/
def NewQuantity (value : Int) (format : Format) : Quantity :=
  { milliValue := value * 1000, format := format }

/-- `corev1.Container`: the fields the webhook reads or writes
(name, image, command, and the resource-request map). -/
structure Container where
  name : String
  image : String
  command : List String
  requests : List (String × Quantity)
deriving DecidableEq

/-- `metav1.ObjectMeta`: name, namespace, and the two nil-able string maps. -/
structure ObjectMeta where
  name : String
  nsName : String
  labels : Option (List (String × String))
  annotations : Option (List (String × String))
deriving DecidableEq

/-- Value payload of a patch operation (`interface{}` in the source):
a plain string, a rendered quantity, or a string map. -/
inductive PatchValue where
  | str (s : String)
  | qty (q : Quantity)
  | map (m : List (String × String))
deriving DecidableEq

/-- `patchOperation` (`{op, path, value}`). -/
structure patchOperation where
  op : String
  path : String
  value : PatchValue
deriving DecidableEq

/-- `metav1.Status` as used by the responses: message and reason. -/
structure StatusResult where
  message : String := ""
  reason : String := ""
deriving DecidableEq

/-- Go map read with the zero-value default: `m[key]` on a nil-able map is
`""` when the map is nil or the key is absent. -/
def lookupStr : List (String × String) → String → String
  | [], _ => ""
  | (k, v) :: rest, key => if k = key then v else lookupStr rest key

/-- Lookup on a nil-able map (`nil` reads as the empty map). -/
def mapLookup (m : Option (List (String × String))) (key : String) : String :=
  match m with
  | none => ""
  | some l => lookupStr l key

/-- Go `_, ok := m[key]` presence test on a non-nil map. -/
def hasKey : List (String × String) → String → Bool
  | [], _ => false
  | (k, _) :: rest, key => k = key || hasKey rest key

/-- Presence test on a nil-able map (a nil map contains no key). -/
def mapHasKey (m : Option (List (String × String))) (key : String) : Bool :=
  match m with
  | none => false
  | some l => hasKey l key

/-- `ignoredNamespaces`: `metav1.NamespaceSystem` and `metav1.NamespacePublic`
(identical in both source versions). -/
def ignoredNamespaces : List String := ["kube-system", "kube-public"]

def admissionWebhookAnnotationValidateKey : String :=
  "admission-webhook-example.qikqiak.com/validate"

def admissionWebhookAnnotationMutateKey : String :=
  "admission-webhook-example.qikqiak.com/mutate"

def admissionWebhookAnnotationStatusKey : String :=
  "admission-webhook-example.qikqiak.com/status"

def nameLabel : String := "app.kubernetes.io/name"
def instanceLabel : String := "app.kubernetes.io/instance"
def versionLabel : String := "app.kubernetes.io/version"
def componentLabel : String := "app.kubernetes.io/component"
def partOfLabel : String := "app.kubernetes.io/part-of"
def managedByLabel : String := "app.kubernetes.io/managed-by"

def requiredLabels : List String :=
  [nameLabel, instanceLabel, versionLabel, componentLabel, partOfLabel, managedByLabel]

/-- Decimal digits of a natural number as characters (the `%d` rendering used
by `fmt.Sprintf` for container indices), with explicit fuel so that it is
structurally recursive and kernel-computable. -/
def decDigitsF : Nat → Nat → List Char
  | 0, _ => []
  | fuel + 1, n =>
    if n < 10 then [Char.ofNat (48 + n)]
    else decDigitsF fuel (n / 10) ++ [Char.ofNat (48 + n % 10)]

/-- Decimal rendering of a natural number (`fmt.Sprintf` `%d`). -/
def decDigits (n : Nat) : List Char := decDigitsF (n + 1) n

namespace V1

/-- `admissionRequired` (`src/unnamed/part_000`): exempt namespaces are never
required; otherwise the lowercased opt-out annotation value switches the
verdict (`"n" | "no" | "false" | "off"` means not required, anything else —
including the empty/absent value — means required). -/
def admissionRequired (ignoredList : List String) (admissionAnnotationKey : String)
    (metadata : ObjectMeta) : Bool :=
  if metadata.nsName ∈ ignoredList then false
  else
    if strLower (mapLookup metadata.annotations admissionAnnotationKey)
        ∈ ["n", "no", "false", "off"] then false
    else true

/-- `mutationRequired` (`src/unnamed/part_000`): `admissionRequired` on the
mutate key, overridden to false when the status annotation already reads
`"mutated"` (case-insensitively). -/
def mutationRequired (ignoredList : List String) (metadata : ObjectMeta) : Bool :=
  let required := admissionRequired ignoredList admissionWebhookAnnotationMutateKey metadata
  let status := mapLookup metadata.annotations admissionWebhookAnnotationStatusKey
  if strLower status = "mutated" then false else required

/-- `validationRequired` (`src/unnamed/part_000`). -/
def validationRequired (ignoredList : List String) (metadata : ObjectMeta) : Bool :=
  admissionRequired ignoredList admissionWebhookAnnotationValidateKey metadata

/-- `updateAnnotation` (`src/unnamed/part_000`, plural name here).  For each
(key, value) to add: when the target map is nil or holds the key with an
empty value, emit an `add` of the single-entry map at `/metadata/annotations`
and reset the local `target` to an empty (non-nil) map; otherwise emit a
per-key `replace`.  The reset means every later key also takes the add
branch. -/
def updateAnnotations : Option (List (String × String)) → List (String × String) →
    List patchOperation
  | _, [] => []
  | target, (key, value) :: rest =>
    if target = none ∨ mapLookup target key = "" then
      { op := "add", path := "/metadata/annotations",
        value := PatchValue.map [(key, value)] }
        :: updateAnnotations (some []) rest
    else
      { op := "replace", path := "/metadata/annotations/" ++ key,
        value := PatchValue.str value }
        :: updateAnnotations target rest

/-- Patch path of the resource-request reduction for container index `i` and
resource name `r`:
`fmt.Sprintf("/spec/template/spec/containers/%d/resources/requests/%s", i, strings.ToLower(r))`. -/
def reductionPath (i : Nat) (r : String) : String :=
  "/spec/template/spec/containers/" ++ ⟨decDigits i⟩ ++ "/resources/requests/" ++ strLower r

/-- The single reduction operation for container index `i` and request entry
`rq`: a `replace` carrying `MilliValue() * 90 / 100` (Go `int64` division
truncates toward zero) re-expressed in the original format. -/
def reductionOp (i : Nat) (rq : String × Quantity) : patchOperation :=
  { op := "replace", path := reductionPath i rq.1,
    value := PatchValue.qty
      { milliValue := (rq.2.milliValue * 90).tdiv 100, format := rq.2.format } }

/-- Loop body of `applyResourceReduction`, indexed from `i`. -/
def applyResourceReductionAux : Nat → List Container → List patchOperation
  | _, [] => []
  | i, c :: rest => c.requests.map (reductionOp i) ++ applyResourceReductionAux (i + 1) rest

/-- `applyResourceReduction` (`src/unnamed/part_000`): one `replace` per
(container index, resource request). -/
def applyResourceReduction (containers : List Container) : List patchOperation :=
  applyResourceReductionAux 0 containers

/-- `createPatch` (`src/unnamed/part_000`): annotation merge followed by the
resource reduction (the label update is commented out in the source;
`json.Marshal` of the operation list is dropped — it cannot fail here). -/
def createPatch (availableAnnotations : Option (List (String × String)))
    (added : List (String × String)) (containers : List Container) :
    List patchOperation :=
  updateAnnotations availableAnnotations added ++ applyResourceReduction containers

/-- The decoded view of the raw admission object: metadata plus, when read as
a Deployment, `spec.template.spec.containers`. -/
structure K8sObject where
  meta : ObjectMeta
  containers : List Container
deriving DecidableEq

/-- The fields of `v1.AdmissionRequest` the core reads: the declared kind and
the (decoded) raw object. -/
structure AdmissionRequest where
  kind : String
  object : K8sObject
deriving DecidableEq

/-- `v1.AdmissionResponse`: Go zero values are `Allowed = false` and nil
patch/result. -/
structure AdmissionResponse where
  allowed : Bool := false
  result : Option StatusResult := none
  patch : Option (List patchOperation) := none
  patchType : Option String := none
deriving DecidableEq

/-- `validate` (`src/unnamed/part_000`): dispatch on kind (Deployment and
Service both expose metadata and labels; anything else is rejected naming the
kind), then the namespace/annotation policy, then the required-label presence
check (the source loop breaks at the first missing key — `find?` of the first
required key absent from the label map). -/
def validate (req : AdmissionRequest) : AdmissionResponse :=
  if req.kind = "Deployment" ∨ req.kind = "Service" then
    if validationRequired ignoredNamespaces req.object.meta = false then
      { allowed := true }
    else
      match requiredLabels.find? (fun rl => ! mapHasKey req.object.meta.labels rl) with
      | some _ =>
        { allowed := false, result := some { reason := "required labels are not set" } }
      | none => { allowed := true }
  else
    { result := some { message := "\nNot support for this Kind of resource  " ++ req.kind } }

/-- `mutate` (`src/unnamed/part_000`): dispatch on kind (only the Deployment
branch assigns `containers`; the Service branch leaves it nil), the
`mutationRequired` policy check is commented out in the source
(`// skip check.`), `availableAnnotations` is declared but never assigned
(always nil), and the patch always installs the status annotation and the
resource reduction. -/
def mutate (req : AdmissionRequest) : AdmissionResponse :=
  if req.kind = "Deployment" ∨ req.kind = "Service" then
    { allowed := true,
      patch := some (createPatch none [(admissionWebhookAnnotationStatusKey, "mutated")]
        (if req.kind = "Deployment" then req.object.containers else [])),
      patchType := some "JSONPatch" }
  else
    { result := some { message := "\nNot support for this Kind of resource  " ++ req.kind } }

end V1

namespace V2

/-- `QoSpec` (`src/unnamed/part_001`): the shared configuration store value
(cpu in milli-units, memory in MiB); the zero-valued instance is the "unset"
sentinel. -/
structure QoSpec where
  cpu : Int
  memory : Int
deriving DecidableEq

/-- `QoS` (`src/unnamed/part_001`): the configuration resource wrapping a spec. -/
structure QoS where
  spec : QoSpec
deriving DecidableEq

/-- `getQoSpec` (`src/unnamed/part_001`): the fixed default `{200, 400}` when
the stored value is the zero sentinel, the stored value otherwise.  The Go
method reads the process-wide `QoSInst`; the embedding passes that store
value explicitly. -/
def getQoSpec (store : QoSpec) : QoSpec :=
  if store = { cpu := 0, memory := 0 } then { cpu := 200, memory := 400 }
  else store

/-- `corev1.PodSpec`: main containers and init containers. -/
structure PodSpec where
  containers : List Container
  initContainers : List Container
deriving DecidableEq

/-- `appsv1.Deployment`: metadata and the pod spec
(`Spec.Template.Spec`). -/
structure Deployment where
  meta : ObjectMeta
  podSpec : PodSpec
deriving DecidableEq

/-- `jsondiff.Compare(deploy, newDeploy)` is an external library call whose
contract is to produce the minimal JSON-Patch operations transforming the
first document into the second; the embedding records the compared pair (the
patch's net effect is `original ↦ mutated`). -/
structure JsonDiff where
  original : Deployment
  mutated : Deployment
deriving DecidableEq

/-- `v1beta1.AdmissionResponse` of the diff-based variant; the patch slot
carries the structural diff. -/
structure AdmissionResponse where
  allowed : Bool := false
  result : Option StatusResult := none
  patch : Option JsonDiff := none
  patchType : Option String := none
deriving DecidableEq

/-- `mutationRequired` (`src/v2/webhook.go`): exempt namespaces are never
required; otherwise the lowercased mutate-annotation value decides, with the
empty/absent value also meaning not required (unlike the V1 switch). -/
def mutationRequired (ignoredList : List String) (metadata : ObjectMeta) : Bool :=
  if metadata.nsName ∈ ignoredList then false
  else
    if strLower (mapLookup metadata.annotations admissionWebhookAnnotationMutateKey)
        ∈ ["n", "no", "false", "off", ""] then false
    else true

/-- The init container injected by `mutateDeploy` (`src/v2/webhook.go`):
fixed name/image/command, CPU request `NewMilliQuantity(store.cpu, DecimalSI)`
and memory request `NewQuantity(store.memory*1024*1024, BinarySI)` read
through `getQoSpec`. -/
def injectedInitContainer (store : QoSpec) : Container :=
  { name := "init", image := "busybox",
    command := ["/bin/sh", "-c", " echo \x27init\x27 && sleep 100 "],
    requests :=
      [("cpu", NewMilliQuantity (getQoSpec store).cpu Format.DecimalSI),
       ("memory", NewQuantity ((getQoSpec store).memory * 1024 * 1024) Format.BinarySI)] }

/-- `mutateDeploy` (`src/v2/webhook.go`): policy check first (allowed with no
patch when mutation is not required), then deep-copy; when the pod spec has
zero init containers, append the single injected init container; finally the
patch is the structural diff of the original and the copy (`jsondiff.Compare`
does not fail on these values, so its error branch is dropped). -/
def mutateDeploy (store : QoSpec) (deploy : Deployment) : AdmissionResponse :=
  if mutationRequired ignoredNamespaces deploy.meta = false then
    { allowed := true }
  else
    let newPodSpec :=
      if deploy.podSpec.initContainers.length = 0 then
        { deploy.podSpec with initContainers := [injectedInitContainer store] }
      else deploy.podSpec
    let newDeploy := { deploy with podSpec := newPodSpec }
    { allowed := true,
      patch := some { original := deploy, mutated := newDeploy },
      patchType := some "JSONPatch" }

/-- `mutateQoS` (`src/v2/webhook.go`): a DELETE operation resets the store to
the zero sentinel; otherwise a non-nil object with a non-zero spec is
installed wholesale; the response is always `allowed = true`.  The function
returns the new store value alongside the response (the Go code assigns the
process-wide `QoSInst`). -/
def mutateQoS (store : QoSpec) (qos : Option QoS) (operation : String) :
    QoSpec × AdmissionResponse :=
  if operation = "DELETE" then
    ({ cpu := 0, memory := 0 }, { allowed := true })
  else
    match qos with
    | some q =>
      if q.spec ≠ { cpu := 0, memory := 0 } then (q.spec, { allowed := true })
      else (store, { allowed := true })
    | none => (store, { allowed := true })

/-- The fields of the `v1beta1.AdmissionRequest` the V2 core reads: kind,
operation, and the decoded views of `Object.Raw` (as a Deployment or a QoS)
and `OldObject.Raw` (as a QoS, read on DELETE). -/
structure AdmissionRequest where
  kind : String
  operation : String
  deployment : Deployment
  qosObject : QoS
  qosOldObject : QoS
deriving DecidableEq

/-- `mutate` (`src/v2/webhook.go`): dispatch on kind — Deployment goes to
`mutateDeploy`, QoS decodes `OldObject.Raw` on DELETE and `Object.Raw`
otherwise and goes to `mutateQoS`, and any other kind is rejected naming the
kind.  Returns the (possibly updated) store with the response. -/
def mutate (store : QoSpec) (req : AdmissionRequest) : QoSpec × AdmissionResponse :=
  if req.kind = "Deployment" then
    (store, mutateDeploy store req.deployment)
  else if req.kind = "QoS" then
    let q := if req.operation = "DELETE" then req.qosOldObject else req.qosObject
    mutateQoS store (some q) req.operation
  else
    (store,
      { result := some
          { message := "\nNot support for this Kind of resource  " ++ req.kind } })

end V2

/-- Key characters of the per-key annotation path: returns the key when the
path is `"/metadata/annotations/" ++ key`, and `none` otherwise. -/
def stripAnnKey : List Char → Option (List Char)
  | '/' :: 'm' :: 'e' :: 't' :: 'a' :: 'd' :: 'a' :: 't' :: 'a' :: '/' ::
    'a' :: 'n' :: 'n' :: 'o' :: 't' :: 'a' :: 't' :: 'i' :: 'o' :: 'n' :: 's' :: '/' ::
    rest => some rest
  | _ => none

/-- Upsert of a key in an association map. -/
def setKey : List (String × String) → String → String → List (String × String)
  | [], k, v => [(k, v)]
  | (k', v') :: rest, k, v =>
    if k' = k then (k, v) :: rest else (k', v') :: setKey rest k v

/-- Modelled from the spec: the application of one JSON-Patch operation to an
object's annotation map, per the spec's RFC 6902 semantics ("an ordered list
of add/replace/remove operations addressed by path, applied sequentially");
the repository itself never applies patches (the orchestrator does).  An
operation at `/metadata/annotations` carrying a map installs that whole map;
an operation at `/metadata/annotations/<key>` carrying a string sets that
key; operations addressing other locations leave the annotations unchanged
(`add` and `replace` differ only in their existence preconditions, which the
uses below satisfy). -/
def applyAnnOp (anns : Option (List (String × String))) (op : patchOperation) :
    Option (List (String × String)) :=
  if op.path = "/metadata/annotations" then
    match op.value with
    | PatchValue.map m => some m
    | _ => anns
  else
    match stripAnnKey op.path.data, op.value with
    | some keyChars, PatchValue.str v => some (setKey (anns.getD []) ⟨keyChars⟩ v)
    | _, _ => anns

/-- Modelled from the spec: sequential application of a patch's
annotation-relevant operations (RFC 6902 order). -/
def applyAnnOps (anns : Option (List (String × String))) :
    List patchOperation → Option (List (String × String))
  | [] => anns
  | op :: rest => applyAnnOps (applyAnnOp anns op) rest

/-- The status-annotation installation operation that `V1.mutate` always
emits. -/
def statusAddOp : patchOperation :=
  { op := "add", path := "/metadata/annotations",
    value := PatchValue.map [(admissionWebhookAnnotationStatusKey, "mutated")] }

/-- The `add` operation `updateAnnotations` emits for one (key, value) pair:
a whole-map installation carrying only that pair. -/
def addOpFor (key value : String) : patchOperation :=
  { op := "add", path := "/metadata/annotations",
    value := PatchValue.map [(key, value)] }

/-- The per-key `replace` operation `updateAnnotations` emits for a key that
is present with a non-empty value. -/
def replaceOpFor (key value : String) : patchOperation :=
  { op := "replace", path := "/metadata/annotations/" ++ key,
    value := PatchValue.str value }

/-! Concrete inputs used by counterexamples and witnesses. -/

def exemptReq : V1.AdmissionRequest :=
  { kind := "Deployment",
    object := { meta := { name := "d", nsName := "kube-system",
                          labels := none, annotations := none },
                containers := [] } }

def sampleContainer : Container :=
  { name := "web", image := "img", command := [],
    requests := [("CPU", { milliValue := 1000, format := Format.DecimalSI })] }

def sampleDeployReq : V1.AdmissionRequest :=
  { kind := "Deployment",
    object := { meta := { name := "d", nsName := "default",
                          labels := none, annotations := none },
                containers := [sampleContainer] } }

def sampleV2Deploy : V2.Deployment :=
  { meta := { name := "app", nsName := "default", labels := none,
              annotations := some [(admissionWebhookAnnotationMutateKey, "yes")] },
    podSpec := { containers := [], initContainers := [] } }

def labeledServiceReq : V1.AdmissionRequest :=
  { kind := "Service",
    object := { meta := { name := "s", nsName := "default",
                          labels := some [(nameLabel, "a"), (instanceLabel, "b"),
                            (versionLabel, "c"), (componentLabel, "d"),
                            (partOfLabel, "e"), (managedByLabel, "f")],
                          annotations := none },
                containers := [] } }

def bareMeta : ObjectMeta :=
  { name := "d", nsName := "default", labels := none, annotations := none }

def mutatedMeta : ObjectMeta :=
  { name := "d", nsName := "default", labels := none,
    annotations := some [(admissionWebhookAnnotationMutateKey, "yes"),
                         (admissionWebhookAnnotationStatusKey, "mutated")] }

def bareDeployReq : V1.AdmissionRequest :=
  { kind := "Deployment", object := { meta := bareMeta, containers := [] } }

def rePatchedDeployReq : V1.AdmissionRequest :=
  { kind := "Deployment",
    object := { meta := { bareMeta with
                  annotations := applyAnnOps bareMeta.annotations [statusAddOp] },
                containers := [] } }

def configMapReq : V2.AdmissionRequest :=
  { kind := "ConfigMap", operation := "CREATE",
    deployment := { meta := bareMeta, podSpec := { containers := [], initContainers := [] } },
    qosObject := { spec := { cpu := 0, memory := 0 } },
    qosOldObject := { spec := { cpu := 0, memory := 0 } } }

/-! ### Helper lemmas: decimal digits -/

theorem decDigitsF_eq (f n : Nat) (h : n < f) : decDigitsF f n = decDigits n := by
  induction f using Nat.strong_induction_on generalizing n with
  | _ f ih =>
    cases f with
    | zero => omega
    | succ f' =>
      by_cases h10 : n < 10
      · simp [decDigitsF, decDigits, h10]
      · have hd : n / 10 < n := Nat.div_lt_self (by omega) (by omega)
        have e1 : decDigitsF f' (n / 10) = decDigits (n / 10) := ih f' (by omega) _ (by omega)
        have e2 : decDigitsF n (n / 10) = decDigits (n / 10) := ih n (by omega) _ hd
        rw [decDigits]
        cases n with
        | zero => omega
        | succ m =>
          rw [decDigitsF, decDigitsF, if_neg h10, if_neg h10, e1]
          rw [e2]

theorem decDigits_eq (n : Nat) :
    decDigits n = if n < 10 then [Char.ofNat (48 + n)]
                  else decDigits (n / 10) ++ [Char.ofNat (48 + n % 10)] := by
  rw [decDigits, decDigitsF]
  by_cases h10 : n < 10
  · simp [h10]
  · have hd : n / 10 < n := Nat.div_lt_self (by omega) (by omega)
    rw [if_neg h10, if_neg h10, decDigitsF_eq n (n / 10) hd]

theorem decDigits_ne_nil (n : Nat) : decDigits n ≠ [] := by
  rw [decDigits_eq]
  split <;> simp

theorem mem_decDigits (n : Nat) :
    ∀ c ∈ decDigits n, ∃ d : Fin 10, c = Char.ofNat (48 + d.val) := by
  induction n using Nat.strong_induction_on with
  | _ n ih =>
    rw [decDigits_eq]
    split
    · intro c hc
      simp only [List.mem_singleton] at hc
      exact ⟨⟨n, by omega⟩, hc⟩
    · intro c hc
      rcases List.mem_append.mp hc with h | h
      · exact ih (n / 10) (Nat.div_lt_self (by omega) (by omega)) c h
      · simp only [List.mem_singleton] at h
        exact ⟨⟨n % 10, Nat.mod_lt _ (by omega)⟩, h⟩

theorem slash_not_mem_decDigits (n : Nat) : '/' ∉ decDigits n := by
  intro h
  obtain ⟨d, hd⟩ := mem_decDigits n '/' h
  have key : ∀ d : Fin 10, '/' ≠ Char.ofNat (48 + d.val) := by decide
  exact key d hd

theorem digitChar_inj {x y : Nat} (hx : x < 10) (hy : y < 10)
    (h : Char.ofNat (48 + x) = Char.ofNat (48 + y)) : x = y := by
  have key : ∀ p q : Fin 10,
      Char.ofNat (48 + p.val) = Char.ofNat (48 + q.val) → p = q := by decide
  have := key ⟨x, hx⟩ ⟨y, hy⟩ h
  simpa using congrArg Fin.val this

theorem decDigits_inj (a b : Nat) (h : decDigits a = decDigits b) : a = b := by
  induction a using Nat.strong_induction_on generalizing b with
  | _ a ih =>
    rw [decDigits_eq a, decDigits_eq b] at h
    by_cases ha : a < 10 <;> by_cases hb : b < 10
    · rw [if_pos ha, if_pos hb] at h
      simp only [List.cons.injEq] at h
      exact digitChar_inj ha hb h.1
    · rw [if_pos ha, if_neg hb] at h
      have hlen := congrArg List.length h
      simp at hlen
      exact absurd hlen (decDigits_ne_nil (b / 10))
    · rw [if_neg ha, if_pos hb] at h
      have hlen := congrArg List.length h
      simp at hlen
      exact absurd hlen (decDigits_ne_nil (a / 10))
    · rw [if_neg ha, if_neg hb] at h
      have hlen : (decDigits (a / 10)).length = (decDigits (b / 10)).length := by
        have := congrArg List.length h
        simp at this
        omega
      obtain ⟨h1, h2⟩ := List.append_inj h hlen
      have hq : a / 10 = b / 10 :=
        ih (a / 10) (Nat.div_lt_self (by omega) (by omega)) _ h1
      simp only [List.cons.injEq] at h2
      have hr : a % 10 = b % 10 :=
        digitChar_inj (Nat.mod_lt _ (by omega)) (Nat.mod_lt _ (by omega)) h2.1
      omega

/-! ### Helper lemmas: reduction-path injectivity -/

theorem append_cons_slash_inj :
    ∀ (l₁ l₂ t₁ t₂ : List Char), l₁ ++ '/' :: t₁ = l₂ ++ '/' :: t₂ →
      '/' ∉ l₁ → '/' ∉ l₂ → l₁ = l₂ ∧ t₁ = t₂ := by
  intro l₁
  induction l₁ with
  | nil =>
    intro l₂ t₁ t₂ h h1 h2
    cases l₂ with
    | nil => simpa using h
    | cons c cs =>
      simp only [List.nil_append, List.cons_append, List.cons.injEq] at h
      exact absurd (h.1 ▸ List.mem_cons_self c cs) h2
  | cons c cs ihl =>
    intro l₂ t₁ t₂ h h1 h2
    cases l₂ with
    | nil =>
      simp only [List.nil_append, List.cons_append, List.cons.injEq] at h
      exact absurd (h.1 ▸ List.mem_cons_self c cs) h1
    | cons d ds =>
      simp only [List.cons_append, List.cons.injEq] at h
      obtain ⟨hc, hrest⟩ := h
      have h1' : '/' ∉ cs := fun hm => h1 (List.mem_cons_of_mem _ hm)
      have h2' : '/' ∉ ds := fun hm => h2 (List.mem_cons_of_mem _ hm)
      obtain ⟨he, ht⟩ := ihl ds t₁ t₂ hrest h1' h2'
      exact ⟨by rw [hc, he], ht⟩

theorem reductionPath_data (i : Nat) (r : String) :
    (V1.reductionPath i r).data
      = "/spec/template/spec/containers/".data
          ++ (decDigits i ++ ('/' :: ("resources/requests/".data ++ (strLower r).data))) := by
  show ("/spec/template/spec/containers/" ++ ⟨decDigits i⟩
      ++ "/resources/requests/" ++ strLower r).data = _
  rw [String.data_append, String.data_append, String.data_append, List.append_assoc,
    List.append_assoc]
  rfl

theorem reductionPath_eq_iff {i j : Nat} {r r' : String} :
    V1.reductionPath i r = V1.reductionPath j r' ↔ i = j ∧ strLower r = strLower r' := by
  constructor
  · intro h
    have hd := congrArg String.data h
    rw [reductionPath_data, reductionPath_data] at hd
    have hd2 := List.append_cancel_left hd
    obtain ⟨h1, h2⟩ := append_cons_slash_inj _ _ _ _ hd2
      (slash_not_mem_decDigits i) (slash_not_mem_decDigits j)
    exact ⟨decDigits_inj _ _ h1, String.ext (List.append_cancel_left h2)⟩
  · rintro ⟨rfl, h⟩
    rw [V1.reductionPath, V1.reductionPath, h]

theorem reductionPath_head (i : Nat) (r : String) :
    ∃ t, (V1.reductionPath i r).data = '/' :: 's' :: t := by
  rw [reductionPath_data]
  exact ⟨_, rfl⟩

theorem reductionPath_ne_annRoot (i : Nat) (r : String) :
    V1.reductionPath i r ≠ "/metadata/annotations" := by
  intro h
  obtain ⟨t, ht⟩ := reductionPath_head i r
  have hd := congrArg String.data h
  rw [ht] at hd
  have hsm : ('s' : Char) = 'm' := by
    simpa using congrArg (fun l => l.tail.head?) hd
  exact absurd hsm (by decide)

theorem reductionPath_ne_annKey (i : Nat) (r key : String) :
    V1.reductionPath i r ≠ "/metadata/annotations/" ++ key := by
  intro h
  obtain ⟨t, ht⟩ := reductionPath_head i r
  have hd := congrArg String.data h
  rw [ht, String.data_append] at hd
  have hsm : ('s' : Char) = 'm' := by
    simpa using congrArg (fun l => l.tail.head?) hd
  exact absurd hsm (by decide)

theorem stripAnnKey_reductionPath (i : Nat) (r : String) :
    stripAnnKey (V1.reductionPath i r).data = none := by
  obtain ⟨t, ht⟩ := reductionPath_head i r
  rw [ht]
  rfl

/-! ### Helper lemmas: filtering the reduction patch -/

theorem mem_applyResourceReductionAux {op : patchOperation} :
    ∀ {n : Nat} {cs : List Container}, op ∈ V1.applyResourceReductionAux n cs →
      ∃ i rq, (∃ c, cs[i]? = some c ∧ rq ∈ c.requests) ∧ op = V1.reductionOp (n + i) rq := by
  intro n cs
  induction cs generalizing n with
  | nil => intro h; simp [V1.applyResourceReductionAux] at h
  | cons c₀ rest ih =>
    intro h
    rw [V1.applyResourceReductionAux, List.mem_append] at h
    rcases h with h | h
    · obtain ⟨rq, hrq, hop⟩ := List.mem_map.mp h
      exact ⟨0, rq, ⟨c₀, by simp, hrq⟩, by rw [Nat.add_zero]; exact hop.symm⟩
    · obtain ⟨i, rq, ⟨c, hc, hrq⟩, hop⟩ := ih h
      exact ⟨i + 1, rq, ⟨c, by simpa using hc, hrq⟩,
        by rw [show n + (i + 1) = n + 1 + i by omega]; exact hop⟩

theorem filter_requests_none {n m : Nat} {r : String} {l : List (String × Quantity)}
    (h : ∀ rq ∈ l, ¬(n = m ∧ strLower rq.1 = strLower r)) :
    (l.map (V1.reductionOp n)).filter
      (fun o => decide (o.path = V1.reductionPath m r)) = [] := by
  induction l with
  | nil => rfl
  | cons rq tl ih =>
    rw [List.map_cons, List.filter_cons]
    have hne : ¬(V1.reductionOp n rq).path = V1.reductionPath m r := by
      intro hp
      exact h rq (List.mem_cons_self _ _) (reductionPath_eq_iff.mp hp)
    rw [if_neg (by simpa using hne)]
    exact ih fun rq' hrq' => h rq' (List.mem_cons_of_mem _ hrq')

theorem filter_requests_mem {n : Nat} {r : String} {q : Quantity} :
    ∀ {l : List (String × Quantity)},
      (l.map fun rq => strLower rq.1).Nodup → (r, q) ∈ l →
      (l.map (V1.reductionOp n)).filter
        (fun o => decide (o.path = V1.reductionPath n r)) = [V1.reductionOp n (r, q)] := by
  intro l
  induction l with
  | nil => intro _ hmem; cases hmem
  | cons hd tl ih =>
    intro hnd hmem
    rw [List.map_cons] at hnd
    rcases List.mem_cons.mp hmem with heq | hmem'
    · subst heq
      rw [List.map_cons, List.filter_cons]
      have hp : (V1.reductionOp n (r, q)).path = V1.reductionPath n r := rfl
      rw [if_pos (by simpa using hp)]
      have htl : ∀ rq ∈ tl, ¬(n = n ∧ strLower rq.1 = strLower r) := by
        intro rq hrq hc
        exact (List.nodup_cons.mp hnd).1 (hc.2 ▸ List.mem_map_of_mem _ hrq)
      rw [filter_requests_none htl]
    · rw [List.map_cons, List.filter_cons]
      have hne : ¬(V1.reductionOp n hd).path = V1.reductionPath n r := by
        intro hp
        have hlow := (reductionPath_eq_iff.mp hp).2
        exact (List.nodup_cons.mp hnd).1 (hlow ▸ List.mem_map_of_mem _ hmem')
      rw [if_neg (by simpa using hne)]
      exact ih (List.nodup_cons.mp hnd).2 hmem'

theorem filter_aux_lt {m : Nat} {r : String} :
    ∀ {n : Nat} {cs : List Container}, m < n →
      (V1.applyResourceReductionAux n cs).filter
        (fun o => decide (o.path = V1.reductionPath m r)) = [] := by
  intro n cs
  induction cs generalizing n with
  | nil => intro _; rfl
  | cons c₀ rest ih =>
    intro hlt
    rw [V1.applyResourceReductionAux, List.filter_append]
    rw [filter_requests_none fun rq _ hc => by omega]
    rw [ih (by omega)]
    rfl

theorem filter_aux_main {r : String} {q : Quantity} {c : Container} :
    ∀ {cs : List Container} {n j : Nat}, cs[j]? = some c → (r, q) ∈ c.requests →
      (∀ c' ∈ cs, (c'.requests.map fun rq => strLower rq.1).Nodup) →
      (V1.applyResourceReductionAux n cs).filter
        (fun o => decide (o.path = V1.reductionPath (n + j) r))
        = [V1.reductionOp (n + j) (r, q)] := by
  intro cs
  induction cs with
  | nil => intro n j hget; simp at hget
  | cons c₀ rest ih =>
    intro n j hget hq hnd
    rw [V1.applyResourceReductionAux, List.filter_append]
    cases j with
    | zero =>
      rw [List.getElem?_cons_zero, Option.some.injEq] at hget
      subst hget
      rw [Nat.add_zero, filter_requests_mem (hnd c₀ (List.mem_cons_self _ _)) hq,
        filter_aux_lt (by omega)]
      rfl
    | succ j' =>
      rw [filter_requests_none fun rq _ hc => by omega]
      rw [List.getElem?_cons_succ] at hget
      have := ih hget hq (fun c' hc' => hnd c' (List.mem_cons_of_mem _ hc'))
        (n := n + 1)
      rw [show n + (j' + 1) = n + 1 + j' by omega, List.nil_append]
      exact this

/-! ### Helper lemmas: policy gate, annotation merge, patch application -/

theorem validationRequired_exempt (m : ObjectMeta) (h : m.nsName ∈ ignoredNamespaces) :
    V1.validationRequired ignoredNamespaces m = false := by
  simp [V1.validationRequired, V1.admissionRequired, h]

theorem mutationRequiredV2_exempt (m : ObjectMeta) (h : m.nsName ∈ ignoredNamespaces) :
    V2.mutationRequired ignoredNamespaces m = false := by
  simp [V2.mutationRequired, h]

theorem updateAnnotations_reset (l : List (String × String)) :
    V1.updateAnnotations (some []) l = l.map fun kv => addOpFor kv.1 kv.2 := by
  induction l with
  | nil => rfl
  | cons kv rest ih =>
    obtain ⟨k, v⟩ := kv
    have hcond : some ([] : List (String × String)) = none ∨ mapLookup (some []) k = "" :=
      Or.inr rfl
    rw [V1.updateAnnotations, if_pos hcond, ih]
    rfl

theorem updateAnnotations_nil_target (l : List (String × String)) :
    V1.updateAnnotations none l = l.map fun kv => addOpFor kv.1 kv.2 := by
  cases l with
  | nil => rfl
  | cons kv rest =>
    obtain ⟨k, v⟩ := kv
    have hcond : (none : Option (List (String × String))) = none ∨ mapLookup none k = "" :=
      Or.inl rfl
    rw [V1.updateAnnotations, if_pos hcond, updateAnnotations_reset]
    rfl

theorem applyAnnOp_reduction {op : patchOperation} {n : Nat} {cs : List Container}
    (hop : op ∈ V1.applyResourceReductionAux n cs) (anns : Option (List (String × String))) :
    applyAnnOp anns op = anns := by
  obtain ⟨i, rq, _, hope⟩ := mem_applyResourceReductionAux hop
  subst hope
  rw [applyAnnOp]
  simp only [V1.reductionOp]
  rw [if_neg (reductionPath_ne_annRoot (n + i) rq.1), stripAnnKey_reductionPath]

theorem applyAnnOps_reduction (n : Nat) (cs : List Container) :
    ∀ anns, applyAnnOps anns (V1.applyResourceReductionAux n cs) = anns := by
  suffices h : ∀ ops, (∀ op ∈ ops, ∀ a, applyAnnOp a op = a) →
      ∀ anns, applyAnnOps anns ops = anns by
    exact h _ (fun op hop a => applyAnnOp_reduction hop a)
  intro ops
  induction ops with
  | nil => intro _ anns; rfl
  | cons op rest ih =>
    intro h anns
    rw [applyAnnOps, h op (List.mem_cons_self _ _)]
    exact ih (fun o ho a => h o (List.mem_cons_of_mem _ ho) a) anns

theorem tdiv_eq_fdiv_of_nonneg {x y : Int} (hx : 0 ≤ x) (hy : 0 ≤ y) :
    x.tdiv y = x.fdiv y := by
  obtain ⟨a, rfl⟩ := Int.eq_ofNat_of_zero_le hx
  obtain ⟨b, rfl⟩ := Int.eq_ofNat_of_zero_le hy
  show (Int.ofNat a).tdiv (Int.ofNat b) = (Int.ofNat a).fdiv (Int.ofNat b)
  cases a <;> simp [Int.tdiv, Int.fdiv]

theorem mutate_patch_deployment (req : V1.AdmissionRequest) (hk : req.kind = "Deployment") :
    (V1.mutate req).patch
      = some (statusAddOp :: V1.applyResourceReduction req.object.containers) := by
  rw [V1.mutate, if_pos (Or.inl hk), hk]
  rfl

/-! ### Claim theorems -/

/-- Claim C1 (corrected), counterexample: a Deployment in the exempt
namespace `kube-system` still gets a patch from the V1 `mutate` — the
namespace-exemption check in `V1.mutate` is commented out in the source
(`// skip check.`), so the claim's "no patch" part fails there. -/
theorem c1_exempt_counterexample :
    exemptReq.object.meta.nsName ∈ ignoredNamespaces
      ∧ (V1.mutate exemptReq).patch ≠ none := by
  exact ⟨by decide, by decide⟩

/-- Claim C1 (corrected), amended: for any object in an exempt namespace,
`V1.validate` and the V2 `mutateDeploy` short-circuit to `allowed = true`
with no patch and no result; the V1 `mutate`, whose exemption check is
disabled in the source, returns `allowed = true` but with a patch. -/
theorem c1_exempt_amended (req : V1.AdmissionRequest) (store : V2.QoSpec)
    (d : V2.Deployment)
    (hk : req.kind = "Deployment" ∨ req.kind = "Service")
    (hns : req.object.meta.nsName ∈ ignoredNamespaces)
    (hd : d.meta.nsName ∈ ignoredNamespaces) :
    V1.validate req = { allowed := true }
  ∧ V2.mutateDeploy store d = { allowed := true }
  ∧ (V1.mutate req).allowed = true ∧ (V1.mutate req).patch ≠ none := by
  refine ⟨?_, ?_, ?_, ?_⟩
  · rw [V1.validate, if_pos hk, validationRequired_exempt _ hns]
    rfl
  · rw [V2.mutateDeploy, mutationRequiredV2_exempt _ hd]
    rfl
  · rw [V1.mutate, if_pos hk]
  · rw [V1.mutate, if_pos hk]
    simp

/-- Claim C1 witness for the amended theorem. -/
theorem c1_exempt_amended_witness :
    (exemptReq.kind = "Deployment" ∨ exemptReq.kind = "Service")
  ∧ exemptReq.object.meta.nsName ∈ ignoredNamespaces
  ∧ ("kube-public" : String) ∈ ignoredNamespaces
  ∧ (V1.validate exemptReq = { allowed := true }
     ∧ V2.mutateDeploy { cpu := 1, memory := 2 }
         { meta := { name := "d", nsName := "kube-public", labels := none,
                     annotations := none },
           podSpec := { containers := [], initContainers := [] } }
       = { allowed := true }
     ∧ (V1.mutate exemptReq).allowed = true ∧ (V1.mutate exemptReq).patch ≠ none) :=
  ⟨by decide, by decide, by decide,
    c1_exempt_amended exemptReq { cpu := 1, memory := 2 }
      { meta := { name := "d", nsName := "kube-public", labels := none,
                  annotations := none },
        podSpec := { containers := [], initContainers := [] } }
      (by decide) (by decide) (by decide)⟩

/-- Claim C4 (confirmed): for a supported, non-exempt object for which
validation is required, `V1.validate` returns `allowed = true` with no result
iff every required label key is present (values unchecked); with at least one
key missing it returns `allowed = false` with reason
"required labels are not set"; no patch is ever produced. -/
theorem c4_validate_labels (req : V1.AdmissionRequest)
    (hk : req.kind = "Deployment" ∨ req.kind = "Service")
    (hv : V1.validationRequired ignoredNamespaces req.object.meta = true) :
    ((V1.validate req).allowed = true ∧ (V1.validate req).result = none
        ↔ ∀ rl ∈ requiredLabels, mapHasKey req.object.meta.labels rl = true)
  ∧ ((∃ rl ∈ requiredLabels, mapHasKey req.object.meta.labels rl = false) →
      V1.validate req
        = { allowed := false,
            result := some { message := "", reason := "required labels are not set" } })
  ∧ (V1.validate req).patch = none := by
  have hval : V1.validate req
      = match requiredLabels.find? (fun rl => ! mapHasKey req.object.meta.labels rl) with
        | some _ =>
          { allowed := false,
            result := some { message := "", reason := "required labels are not set" } }
        | none => { allowed := true } := by
    rw [V1.validate, if_pos hk, hv]
    rfl
  cases hfind : requiredLabels.find? (fun rl => ! mapHasKey req.object.meta.labels rl) with
  | none =>
    rw [hfind] at hval
    have hall : ∀ rl ∈ requiredLabels, mapHasKey req.object.meta.labels rl = true := by
      intro rl hrl
      have := List.find?_eq_none.mp hfind rl hrl
      simpa using this
    refine ⟨?_, ?_, ?_⟩
    · rw [hval]
      simp only []
      constructor
      · intro _
        exact hall
      · intro _
        simp
    · rintro ⟨rl, hrl, hmiss⟩
      rw [hall rl hrl] at hmiss
      cases hmiss
    · rw [hval]
  | some rl =>
    rw [hfind] at hval
    have hrl : rl ∈ requiredLabels := List.mem_of_find?_eq_some hfind
    have hmiss : mapHasKey req.object.meta.labels rl = false := by
      have := List.find?_some hfind
      simpa using this
    refine ⟨?_, ?_, ?_⟩
    · rw [hval]
      constructor
      · rintro ⟨h1, _⟩
        cases h1
      · intro hall
        rw [hall rl hrl] at hmiss
        cases hmiss
    · intro _
      rw [hval]
    · rw [hval]

/-- Claim C4 witness. -/
theorem c4_validate_labels_witness :
    (labeledServiceReq.kind = "Deployment" ∨ labeledServiceReq.kind = "Service")
  ∧ V1.validationRequired ignoredNamespaces labeledServiceReq.object.meta = true
  ∧ (((V1.validate labeledServiceReq).allowed = true
        ∧ (V1.validate labeledServiceReq).result = none
        ↔ ∀ rl ∈ requiredLabels, mapHasKey labeledServiceReq.object.meta.labels rl = true)
     ∧ ((∃ rl ∈ requiredLabels, mapHasKey labeledServiceReq.object.meta.labels rl = false) →
        V1.validate labeledServiceReq
          = { allowed := false,
              result := some { message := "", reason := "required labels are not set" } })
     ∧ (V1.validate labeledServiceReq).patch = none) :=
  ⟨by decide, by decide, c4_validate_labels labeledServiceReq (by decide) (by decide)⟩

/-- Claim C5 (confirmed): the store's `get` returns the fixed default
`{200, 400}` when never set (the initial store is the zero sentinel) and
after a DELETE-type configuration request (which resets the store to the
sentinel); a non-DELETE request with a non-empty spec installs that spec
wholesale, and `get` then returns it. -/
theorem c5_config_store (store : V2.QoSpec) (q : V2.QoS) (op : String)
    (spec : V2.QoSpec)
    (hnz : spec ≠ { cpu := 0, memory := 0 }) (hop : op ≠ "DELETE") :
    V2.getQoSpec { cpu := 0, memory := 0 } = { cpu := 200, memory := 400 }
  ∧ (V2.mutateQoS store (some q) "DELETE").1 = { cpu := 0, memory := 0 }
  ∧ V2.getQoSpec (V2.mutateQoS store (some q) "DELETE").1 = { cpu := 200, memory := 400 }
  ∧ (V2.mutateQoS store (some { spec := spec }) op).1 = spec
  ∧ V2.getQoSpec spec = spec := by
  refine ⟨rfl, rfl, rfl, ?_, ?_⟩
  · rw [V2.mutateQoS, if_neg hop]
    simp [hnz]
  · rw [V2.getQoSpec, if_neg hnz]

/-- Claim C5 witness. -/
theorem c5_config_store_witness :
    ({ cpu := 500, memory := 800 } : V2.QoSpec) ≠ { cpu := 0, memory := 0 }
  ∧ ("CREATE" : String) ≠ "DELETE"
  ∧ (V2.getQoSpec { cpu := 0, memory := 0 } = { cpu := 200, memory := 400 }
     ∧ (V2.mutateQoS { cpu := 1, memory := 2 }
          (some { spec := { cpu := 3, memory := 4 } }) "DELETE").1
         = { cpu := 0, memory := 0 }
     ∧ V2.getQoSpec (V2.mutateQoS { cpu := 1, memory := 2 }
          (some { spec := { cpu := 3, memory := 4 } }) "DELETE").1
         = { cpu := 200, memory := 400 }
     ∧ (V2.mutateQoS { cpu := 1, memory := 2 }
          (some { spec := { cpu := 500, memory := 800 } }) "CREATE").1
         = { cpu := 500, memory := 800 }
     ∧ V2.getQoSpec { cpu := 500, memory := 800 } = { cpu := 500, memory := 800 }) :=
  ⟨by decide, by decide,
    c5_config_store { cpu := 1, memory := 2 } { spec := { cpu := 3, memory := 4 } }
      "CREATE" { cpu := 500, memory := 800 } (by decide) (by decide)⟩

/-- Claim C6 (corrected), counterexample: with the mutate annotation
empty/absent in a non-exempt namespace, `V1.mutationRequired` returns `true`
(the V1 switch has no empty case), where the claim predicts `false`; and with
the status annotation equal to `"mutated"` but the mutate annotation set to
`"yes"`, `V2.mutationRequired` returns `true` (V2 has no status check), where
the claim predicts `false`. -/
theorem c6_mutation_policy_counterexample :
    (bareMeta.nsName ∉ ignoredNamespaces
      ∧ mapLookup bareMeta.annotations admissionWebhookAnnotationMutateKey = ""
      ∧ V1.mutationRequired ignoredNamespaces bareMeta = true)
  ∧ (mutatedMeta.nsName ∉ ignoredNamespaces
      ∧ mapLookup mutatedMeta.annotations admissionWebhookAnnotationStatusKey = "mutated"
      ∧ V2.mutationRequired ignoredNamespaces mutatedMeta = true) := by
  exact ⟨⟨by decide, by decide, by decide⟩, ⟨by decide, by decide, by decide⟩⟩

/-- Claim C6 (corrected), amended: in a non-exempt namespace,
`V1.mutationRequired` is false iff the lowercased mutate-annotation value is
in {"n","no","false","off"} or the lowercased status annotation equals
"mutated" (an empty/absent mutate annotation means required); and
`V2.mutationRequired` is false iff the lowercased mutate-annotation value is
in {"n","no","false","off",""} (the status annotation is not consulted). -/
theorem c6_mutation_policy_amended (m : ObjectMeta)
    (hns : m.nsName ∉ ignoredNamespaces) :
    (V1.mutationRequired ignoredNamespaces m = false
      ↔ (strLower (mapLookup m.annotations admissionWebhookAnnotationMutateKey)
            ∈ ["n", "no", "false", "off"]
         ∨ strLower (mapLookup m.annotations admissionWebhookAnnotationStatusKey)
            = "mutated"))
  ∧ (V2.mutationRequired ignoredNamespaces m = false
      ↔ strLower (mapLookup m.annotations admissionWebhookAnnotationMutateKey)
          ∈ ["n", "no", "false", "off", ""]) := by
  constructor
  · rw [V1.mutationRequired, V1.admissionRequired]
    by_cases hst : strLower (mapLookup m.annotations admissionWebhookAnnotationStatusKey)
        = "mutated"
      <;> by_cases hv : strLower (mapLookup m.annotations admissionWebhookAnnotationMutateKey)
        ∈ ["n", "no", "false", "off"]
      <;> simp [hns, hst, hv]
  · rw [V2.mutationRequired]
    by_cases hv : strLower (mapLookup m.annotations admissionWebhookAnnotationMutateKey)
        ∈ ["n", "no", "false", "off", ""]
      <;> simp [hns, hv]

/-- Claim C6 witness for the amended theorem. -/
theorem c6_mutation_policy_amended_witness :
    mutatedMeta.nsName ∉ ignoredNamespaces
  ∧ ((V1.mutationRequired ignoredNamespaces mutatedMeta = false
      ↔ (strLower (mapLookup mutatedMeta.annotations admissionWebhookAnnotationMutateKey)
            ∈ ["n", "no", "false", "off"]
         ∨ strLower (mapLookup mutatedMeta.annotations admissionWebhookAnnotationStatusKey)
            = "mutated"))
     ∧ (V2.mutationRequired ignoredNamespaces mutatedMeta = false
      ↔ strLower (mapLookup mutatedMeta.annotations admissionWebhookAnnotationMutateKey)
          ∈ ["n", "no", "false", "off", ""])) :=
  ⟨by decide, c6_mutation_policy_amended mutatedMeta (by decide)⟩

/-- Claim C9 (confirmed): for a declared kind outside the supported sets,
`V1.validate`, `V1.mutate` and `V2.mutate` all return a response with
`allowed` unset (false), no patch, and `result.message` naming the kind
("\nNot support for this Kind of resource  <kind>"); the V2 dispatcher also
leaves the store untouched.  All three functions are total, so the rejection
is not fatal. -/
theorem c9_unsupported_kind (k : String)
    (hd : k ≠ "Deployment") (hs : k ≠ "Service") (hq : k ≠ "QoS")
    (obj : V1.K8sObject) (store : V2.QoSpec) (req2 : V2.AdmissionRequest)
    (hk2 : req2.kind = k) :
    V1.validate { kind := k, object := obj }
      = { result := some { message := "\nNot support for this Kind of resource  " ++ k } }
  ∧ V1.mutate { kind := k, object := obj }
      = { result := some { message := "\nNot support for this Kind of resource  " ++ k } }
  ∧ (V2.mutate store req2).2
      = { result := some { message := "\nNot support for this Kind of resource  " ++ k } }
  ∧ (V2.mutate store req2).1 = store := by
  refine ⟨?_, ?_, ?_, ?_⟩
  · simp [V1.validate, hd, hs]
  · simp [V1.mutate, hd, hs]
  · simp [V2.mutate, hk2, hd, hq]
  · simp [V2.mutate, hk2, hd, hq]

/-- Claim C9 witness: the unsupported kind "ConfigMap". -/
theorem c9_unsupported_kind_witness :
    ("ConfigMap" : String) ≠ "Deployment"
  ∧ ("ConfigMap" : String) ≠ "Service"
  ∧ ("ConfigMap" : String) ≠ "QoS"
  ∧ configMapReq.kind = "ConfigMap"
  ∧ (V1.validate { kind := "ConfigMap", object := { meta := bareMeta, containers := [] } }
      = { result := some
            { message := "\nNot support for this Kind of resource  " ++ "ConfigMap" } }
     ∧ V1.mutate { kind := "ConfigMap", object := { meta := bareMeta, containers := [] } }
      = { result := some
            { message := "\nNot support for this Kind of resource  " ++ "ConfigMap" } }
     ∧ (V2.mutate { cpu := 1, memory := 2 } configMapReq).2
      = { result := some
            { message := "\nNot support for this Kind of resource  " ++ "ConfigMap" } }
     ∧ (V2.mutate { cpu := 1, memory := 2 } configMapReq).1 = { cpu := 1, memory := 2 }) :=
  ⟨by decide, by decide, by decide, by decide,
    c9_unsupported_kind "ConfigMap" (by decide) (by decide) (by decide)
      { meta := bareMeta, containers := [] } { cpu := 1, memory := 2 }
      configMapReq (by decide)⟩

/-- Claim C2 (confirmed): for a Deployment request, for every container at
index `i` and every declared request `(r, q)` (with per-container lowercased
request names duplicate-free and a nonnegative milli-value, as resource
requests are), the mutation patch contains exactly one `replace` operation at
`/spec/template/spec/containers/<i>/resources/requests/<lower r>` whose value
is the quantity `floor(m*90/100)` milli-units in the original format — the
source computes Go truncating division, which equals the floor on nonnegative
values. -/
theorem c2_reduction_exactly_one (req : V1.AdmissionRequest)
    (hk : req.kind = "Deployment")
    (i : Nat) (c : Container) (hc : req.object.containers[i]? = some c)
    (r : String) (q : Quantity) (hq : (r, q) ∈ c.requests)
    (hnd : ∀ c' ∈ req.object.containers,
      (c'.requests.map fun rq => strLower rq.1).Nodup)
    (hm : 0 ≤ q.milliValue) :
    (∀ ops, (V1.mutate req).patch = some ops →
      ops.filter (fun o => decide (o.path = V1.reductionPath i r))
        = [{ op := "replace", path := V1.reductionPath i r,
             value := PatchValue.qty
               { milliValue := (q.milliValue * 90).tdiv 100, format := q.format } }])
  ∧ (q.milliValue * 90).tdiv 100 = (q.milliValue * 90).fdiv 100 := by
  constructor
  · intro ops hops
    rw [mutate_patch_deployment req hk] at hops
    rw [Option.some.injEq] at hops
    subst hops
    rw [List.filter_cons,
      if_neg (by simpa using fun h => reductionPath_ne_annRoot i r h.symm)]
    have hmain := filter_aux_main (n := 0) (j := i) hc hq hnd
    rw [Nat.zero_add] at hmain
    rw [V1.applyResourceReduction, hmain]
    rfl
  · exact tdiv_eq_fdiv_of_nonneg (by positivity) (by norm_num)

/-- Claim C2 witness: one container with the single request
`("CPU", 1000 milli, DecimalSI)`; the emitted operation replaces
`/spec/template/spec/containers/0/resources/requests/cpu` with 900 milli. -/
theorem c2_reduction_exactly_one_witness :
    sampleDeployReq.kind = "Deployment"
  ∧ sampleDeployReq.object.containers[0]? = some sampleContainer
  ∧ (("CPU", ({ milliValue := 1000, format := Format.DecimalSI } : Quantity))
      ∈ sampleContainer.requests)
  ∧ (∀ c' ∈ sampleDeployReq.object.containers,
      (c'.requests.map fun rq => strLower rq.1).Nodup)
  ∧ ((0 : Int) ≤ 1000)
  ∧ ((∀ ops, (V1.mutate sampleDeployReq).patch = some ops →
        ops.filter (fun o => decide (o.path = V1.reductionPath 0 "CPU"))
          = [{ op := "replace", path := V1.reductionPath 0 "CPU",
               value := PatchValue.qty
                 { milliValue := ((1000 : Int) * 90).tdiv 100,
                   format := Format.DecimalSI } }])
     ∧ ((1000 : Int) * 90).tdiv 100 = ((1000 : Int) * 90).fdiv 100) :=
  ⟨by decide, by decide, by decide, by decide, by decide,
    c2_reduction_exactly_one sampleDeployReq (by decide) 0 sampleContainer (by decide)
      "CPU" { milliValue := 1000, format := Format.DecimalSI } (by decide) (by decide)
      (by decide)⟩

/-- Claim C3 (confirmed): for a Deployment with zero init containers for
which mutation is required, the V2 mutate returns `allowed = true` and a
patch transforming the deployment into one whose init-container list is
exactly the single injected container; with store value `{cpu := 500,
memory := 800}` that container is named "init" with CPU request 500
milli-units (decimal scale) and memory request `800*1024*1024` bytes
(binary scale, `NewQuantity` stores 1000 milli-units per byte). -/
theorem c3_init_injection (store : V2.QoSpec) (d : V2.Deployment)
    (hreq : V2.mutationRequired ignoredNamespaces d.meta = true)
    (hinit : d.podSpec.initContainers = []) :
    V2.mutateDeploy store d
      = { allowed := true,
          patch := some
            { original := d,
              mutated := { d with podSpec :=
                { d.podSpec with initContainers := [V2.injectedInitContainer store] } } },
          patchType := some "JSONPatch" }
  ∧ V2.injectedInitContainer { cpu := 500, memory := 800 }
      = { name := "init", image := "busybox",
          command := ["/bin/sh", "-c", " echo \x27init\x27 && sleep 100 "],
          requests :=
            [("cpu", { milliValue := 500, format := Format.DecimalSI }),
             ("memory", { milliValue := 800 * 1024 * 1024 * 1000,
                          format := Format.BinarySI })] } := by
  constructor
  · rw [V2.mutateDeploy, hreq]
    simp [hinit]
  · decide

/-- Claim C3 witness: a Deployment with zero init containers, mutation
enabled by annotation, and store value `{500, 800}`. -/
theorem c3_init_injection_witness :
    V2.mutationRequired ignoredNamespaces sampleV2Deploy.meta = true
  ∧ sampleV2Deploy.podSpec.initContainers = []
  ∧ (V2.mutateDeploy { cpu := 500, memory := 800 } sampleV2Deploy
      = { allowed := true,
          patch := some
            { original := sampleV2Deploy,
              mutated := { sampleV2Deploy with podSpec :=
                { sampleV2Deploy.podSpec with initContainers :=
                    [V2.injectedInitContainer { cpu := 500, memory := 800 }] } } },
          patchType := some "JSONPatch" }
     ∧ V2.injectedInitContainer { cpu := 500, memory := 800 }
      = { name := "init", image := "busybox",
          command := ["/bin/sh", "-c", " echo \x27init\x27 && sleep 100 "],
          requests :=
            [("cpu", { milliValue := 500, format := Format.DecimalSI }),
             ("memory", { milliValue := 800 * 1024 * 1024 * 1000,
                          format := Format.BinarySI })] }) :=
  ⟨by decide, by decide,
    c3_init_injection { cpu := 500, memory := 800 } sampleV2Deploy (by decide) (by decide)⟩

/-- Claim C7 (corrected), counterexample: target `{b: "x"}` and keys to add
`[a, c, b]` — two keys (`a`, `c`) are missing, `b` is present with a
non-empty value, yet the emitted patch is three singleton `add` operations
and contains no `replace` at all: the source resets its local `target` to an
empty map inside the add branch, so every key after the first missing one
also takes the add branch. -/
theorem c7_annotation_merge_counterexample :
    lookupStr [("b", "x")] "b" ≠ ""
  ∧ V1.updateAnnotations (some [("b", "x")]) [("a", "1"), ("c", "3"), ("b", "2")]
      = [addOpFor "a" "1", addOpFor "c" "3", addOpFor "b" "2"]
  ∧ (V1.updateAnnotations (some [("b", "x")])
      [("a", "1"), ("c", "3"), ("b", "2")]).filter (fun o => decide (o.op = "replace"))
      = [] := by
  exact ⟨by decide, by decide, by decide⟩

/-- Claim C7 (corrected), amended: with the target map absent, every key
yields one singleton `add`; with the target map present, the keys iterated
before the first missing-or-empty key yield per-key `replace` operations, and
that key and every key after it (present or not) yield singleton `add`
operations, because the add branch resets the local target to an empty map. -/
theorem c7_annotation_merge_amended (t : List (String × String))
    (pre post : List (String × String)) (k₀ v₀ : String)
    (hpre : ∀ p ∈ pre, lookupStr t p.1 ≠ "")
    (hmiss : lookupStr t k₀ = "") :
    (∀ added, V1.updateAnnotations none added
        = added.map fun kv => addOpFor kv.1 kv.2)
  ∧ V1.updateAnnotations (some t) (pre ++ (k₀, v₀) :: post)
      = pre.map (fun kv => replaceOpFor kv.1 kv.2)
        ++ addOpFor k₀ v₀ :: post.map (fun kv => addOpFor kv.1 kv.2) := by
  refine ⟨updateAnnotations_nil_target, ?_⟩
  induction pre with
  | nil =>
    rw [List.nil_append, List.map_nil, List.nil_append]
    have hcond : some t = none ∨ mapLookup (some t) k₀ = "" := Or.inr hmiss
    rw [V1.updateAnnotations, if_pos hcond, updateAnnotations_reset]
    rfl
  | cons p pre' ih =>
    obtain ⟨k, v⟩ := p
    have hk : lookupStr t k ≠ "" := hpre (k, v) (List.mem_cons_self _ _)
    have hcond : ¬(some t = none ∨ mapLookup (some t) k = "") := by
      rintro (h | h)
      · cases h
      · exact hk h
    rw [List.cons_append, V1.updateAnnotations, if_neg hcond,
      ih fun p' hp' => hpre p' (List.mem_cons_of_mem _ hp')]
    rfl

/-- Claim C7 witness for the amended theorem. -/
theorem c7_annotation_merge_amended_witness :
    (∀ p ∈ [(("p" : String), ("1" : String))], lookupStr [("p", "1")] p.1 ≠ "")
  ∧ lookupStr [("p", "1")] "q" = ""
  ∧ ((∀ added, V1.updateAnnotations none added
        = added.map fun kv => addOpFor kv.1 kv.2)
     ∧ V1.updateAnnotations (some [("p", "1")]) ([("p", "1")] ++ ("q", "2") :: [("z", "9")])
        = [("p", "1")].map (fun kv => replaceOpFor kv.1 kv.2)
          ++ addOpFor "q" "2" :: [("z", "9")].map (fun kv => addOpFor kv.1 kv.2)) :=
  ⟨by decide, by decide,
    c7_annotation_merge_amended [("p", "1")] [("p", "1")] [("z", "9")] "q" "2"
      (by decide) (by decide)⟩

/-- Claim C8 (code_bug): the spec's idempotence target fails on the source.
On a bare Deployment, `V1.mutate` emits the single status-annotation `add`;
applying it per RFC 6902 installs the status annotation; but recomputing the
patch on the patched object emits the very same `add` for the same key again,
because `V1.mutate` never reads the object's annotations (its
`availableAnnotations` is always nil) and its already-mutated guard is
commented out. -/
theorem c8_idempotence_violation :
    (V1.mutate bareDeployReq).patch = some [statusAddOp]
  ∧ applyAnnOps bareMeta.annotations [statusAddOp]
      = some [(admissionWebhookAnnotationStatusKey, "mutated")]
  ∧ mapLookup rePatchedDeployReq.object.meta.annotations
      admissionWebhookAnnotationStatusKey = "mutated"
  ∧ (V1.mutate rePatchedDeployReq).patch = some [statusAddOp] := by
  exact ⟨by decide, by decide, by decide, by decide⟩

/-- Claim C10 (confirmed): for every supported-kind request, the V1 mutation
patch is exactly the whole-map `add` of `{status key: "mutated"}` at
`/metadata/annotations` followed by the resource-reduction operations; it
never contains a `replace` at `/metadata/annotations/<key>`; and applying its
annotation-relevant operations per RFC 6902 replaces any pre-existing
annotation map wholesale with the singleton status map. -/
theorem c10_status_add_only (req : V1.AdmissionRequest)
    (hk : req.kind = "Deployment" ∨ req.kind = "Service") :
    (V1.mutate req).patch
      = some (statusAddOp :: V1.applyResourceReduction
          (if req.kind = "Deployment" then req.object.containers else []))
  ∧ (∀ key op, op ∈ statusAddOp :: V1.applyResourceReduction
        (if req.kind = "Deployment" then req.object.containers else []) →
      ¬(op.op = "replace" ∧ op.path = "/metadata/annotations/" ++ key))
  ∧ (∀ anns₀, applyAnnOps anns₀ (statusAddOp :: V1.applyResourceReduction
        (if req.kind = "Deployment" then req.object.containers else []))
      = some [(admissionWebhookAnnotationStatusKey, "mutated")]) := by
  refine ⟨?_, ?_, ?_⟩
  · rw [V1.mutate, if_pos hk]
    rfl
  · intro key op hop
    rcases List.mem_cons.mp hop with heq | hmem
    · subst heq
      rintro ⟨h1, _⟩
      exact absurd h1 (by decide)
    · obtain ⟨i, rq, _, hope⟩ := mem_applyResourceReductionAux hmem
      subst hope
      rintro ⟨_, h2⟩
      exact reductionPath_ne_annKey _ _ key h2
  · intro anns₀
    rw [applyAnnOps,
      show applyAnnOp anns₀ statusAddOp
        = some [(admissionWebhookAnnotationStatusKey, "mutated")] from rfl]
    exact applyAnnOps_reduction 0 _ _

/-- Claim C10 witness: a Service request (empty container list) — the patch
is the single status `add`, and application installs the singleton map over
any prior annotations. -/
theorem c10_status_add_only_witness :
    (labeledServiceReq.kind = "Deployment" ∨ labeledServiceReq.kind = "Service")
  ∧ ((V1.mutate labeledServiceReq).patch
      = some (statusAddOp :: V1.applyResourceReduction
          (if labeledServiceReq.kind = "Deployment"
           then labeledServiceReq.object.containers else []))
     ∧ (∀ key op, op ∈ statusAddOp :: V1.applyResourceReduction
          (if labeledServiceReq.kind = "Deployment"
           then labeledServiceReq.object.containers else []) →
        ¬(op.op = "replace" ∧ op.path = "/metadata/annotations/" ++ key))
     ∧ (∀ anns₀, applyAnnOps anns₀ (statusAddOp :: V1.applyResourceReduction
          (if labeledServiceReq.kind = "Deployment"
           then labeledServiceReq.object.containers else []))
        = some [(admissionWebhookAnnotationStatusKey, "mutated")])) :=
  ⟨by decide, c10_status_add_only labeledServiceReq (by decide)⟩
